import Mathlib

/-!
Verification development for the camera-data cleaning script
(`data_preprocess.py`).  Strings are modelled as `List Char`, Python floats
as `ℚ`, the missing-value sentinel `NaN` as `none : Option ℚ`, and a raised
exception as `Except.error ()`.  Field values coming from the JSON input are
`Option (List Char)`, with `none` standing for a null/NaN cell.
-/

deriving instance DecidableEq for Except

attribute [local semireducible] Rat.add Rat.mul Rat.inv Rat.sub

/-! ## Character and parsing utilities -/

/-- ASCII lowercasing, modelling Python `str.lower` on the ASCII range. -/
def asciiLower (c : Char) : Char :=
  if 65 ≤ c.toNat && c.toNat ≤ 90 then Char.ofNat (c.toNat + 32) else c

/-- Python `\s` (ASCII range): space, tab, newline, carriage return,
vertical tab, form feed. -/
def isPySpace (c : Char) : Bool :=
  c == ' ' || c == '\t' || c == '\n' || c == '\r' || c == '\x0b' || c == '\x0c'

/-- Characters matched by the regex class `[\d.]`. -/
def isNumChar (c : Char) : Bool := c.isDigit || c == '.'

/-- Python `str.strip`: drop whitespace at both ends. -/
def trimWs (cs : List Char) : List Char :=
  ((cs.dropWhile isPySpace).reverse.dropWhile isPySpace).reverse

/-- Value of a run of decimal digits (base-10, most significant first). -/
def digitsVal (cs : List Char) : ℚ :=
  cs.foldl (fun a c => a * 10 + ((c.toNat - 48 : ℕ) : ℚ)) 0

/-- Value of the fractional digits after a decimal point. -/
def fracVal (cs : List Char) : ℚ :=
  cs.foldr (fun c a => (((c.toNat - 48 : ℕ) : ℚ) + a) / 10) 0

/-- Python `float` applied to a token drawn from the regex class `[\d.]+`:
it succeeds exactly when the token has at least one digit and at most one
decimal point; otherwise (`"."`, `"1.2.3"`, ...) `float` raises. -/
def parseFloatTok (cs : List Char) : Option ℚ :=
  if cs.all isNumChar && cs.any Char.isDigit && decide (cs.count '.' ≤ 1) then
    some (digitsVal (cs.takeWhile (fun c => c != '.')) +
          fracVal ((cs.dropWhile (fun c => c != '.')).drop 1))
  else none

/-- Numeric coercion of a whole cleaned string (an optional sign followed by
a decimal literal), modelling `pd.to_numeric(..., errors='coerce')` on the
inputs this script feeds it. -/
def parseSignedNumber (cs : List Char) : Option ℚ :=
  match cs with
  | '+' :: rest => parseFloatTok rest
  | '-' :: rest => (parseFloatTok rest).map (fun q => -q)
  | _ => parseFloatTok cs

/-- Fuel-driven worker for `runs`; the fuel is always at least the length of
the list, so the truncation branch is never taken. -/
def runsF (p : Char → Bool) : ℕ → List Char → List (List Char)
  | 0, _ => []
  | _, [] => []
  | f + 1, c :: cs =>
    if p c then (c :: cs.takeWhile p) :: runsF p f (cs.dropWhile p)
    else runsF p f cs

/-- All maximal runs of characters satisfying `p`, left to right: this is
`re.findall` for a character-class regex such as `\d+` or `[\d.]+`. -/
def runs (p : Char → Bool) (s : List Char) : List (List Char) :=
  runsF p s.length s

/-- First maximal `[\d.]+` run, i.e. `re.search(r'([\d.]+)', s)`. -/
def firstNumTok (s : List Char) : Option (List Char) :=
  (runs isNumChar s).head?

/-- Python substring membership `pat in s`. -/
def containsSub (pat : List Char) : List Char → Bool
  | [] => pat.isEmpty
  | c :: cs => pat.isPrefixOf (c :: cs) || containsSub pat cs

/-- Python `str.replace('cm', '')`: delete every (left-to-right,
non-overlapping) occurrence of `"cm"`. -/
def removeCm : List Char → List Char
  | 'c' :: 'm' :: rest => removeCm rest
  | c :: rest => c :: removeCm rest
  | [] => []

/-- Fuel-driven worker for `findRunBefore`. -/
def findRunBeforeF (t : Char) : ℕ → List Char → Option (List Char)
  | 0, _ => none
  | _, [] => none
  | f + 1, c :: cs =>
    if isNumChar c then
      match cs.dropWhile isNumChar with
      | r :: rest' =>
        if r == t then some (c :: cs.takeWhile isNumChar)
        else findRunBeforeF t f (r :: rest')
      | [] => none
    else findRunBeforeF t f cs

/-- `re.search(r'([\d.]+)m', s)`: the first maximal `[\d.]+` run that is
immediately followed by the character `t` (returning the run).  Positions
inside a run cannot match (the shortened run would still be followed by a
`[\d.]` character, not `t`), so scanning run by run is exact. -/
def findRunBefore (t : Char) (s : List Char) : Option (List Char) :=
  findRunBeforeF t s.length s

/-- Fuel-driven worker for `dimTokens`. -/
def dimTokensF : ℕ → List Char → List ℚ
  | 0, _ => []
  | _, [] => []
  | f + 1, c :: cs =>
    if c.isDigit then
      match cs.dropWhile Char.isDigit with
      | '.' :: d :: rest2 =>
        if d.isDigit then
          (digitsVal (c :: cs.takeWhile Char.isDigit) +
              fracVal (d :: rest2.takeWhile Char.isDigit)) ::
            dimTokensF f (rest2.dropWhile Char.isDigit)
        else digitsVal (c :: cs.takeWhile Char.isDigit) ::
            dimTokensF f ('.' :: d :: rest2)
      | rest1 => digitsVal (c :: cs.takeWhile Char.isDigit) :: dimTokensF f rest1
    else dimTokensF f cs

/-- `re.findall(r'\d+\.\d+|\d+', s)`, already converted through `float`:
at each position the alternation prefers a full decimal (`\d+\.\d+`) and
otherwise takes a bare integer run. -/
def dimTokens (s : List Char) : List ℚ :=
  dimTokensF s.length s

/-- The sign class `[±+-]` of the exposure-compensation regex. -/
def isExpoSign (c : Char) : Bool := c == '±' || c == '+' || c == '-'

/-- Attempt to match `\s*([\d.]+)\s*EV` directly after a sign character;
returns the captured `[\d.]+` group.  The greedy quantifiers cannot give
characters back usefully (a returned `[\d.]` or space character can never
match the following literal), so maximal munch is exact. -/
def expoTry (cs : List Char) : Option (List Char) :=
  let cs1 := cs.dropWhile isPySpace
  let tok := cs1.takeWhile isNumChar
  if tok.isEmpty then none
  else
    match (cs1.dropWhile isNumChar).dropWhile isPySpace with
    | 'E' :: 'V' :: _ => some tok
    | _ => none

/-- `re.search(r'[±+-]\s*([\d.]+)\s*EV', s)`: leftmost match, returning
the captured group. -/
def expoSignMatch : List Char → Option (List Char)
  | [] => none
  | c :: cs =>
    if isExpoSign c then
      match expoTry cs with
      | some tok => some tok
      | none => expoSignMatch cs
    else expoSignMatch cs

/-! ## Field normalizers (`data_preprocess.py`, section 2)

Each takes the raw cell (`none` = null/NaN) and returns
`Except.ok (some q)` for an extracted number, `Except.ok none` for the
missing-value sentinel `np.nan`, and `Except.error ()` when the Python code
would raise an uncaught exception. -/

/-- `clean_weight`: lower-case, drop commas, strip, then `float` of the
first `[\d.]+` run. -/
def clean_weight (x : Option (List Char)) : Except Unit (Option ℚ) :=
  match x with
  | none => .ok none
  | some s0 =>
    let s := trimWs ((s0.map asciiLower).filter (fun c => c != ','))
    match firstNumTok s with
    | none => .ok none
    | some tok =>
      match parseFloatTok tok with
      | some q => .ok (some q)
      | none => .error ()

/-- `clean_max_iso`: drop commas, strip, then the last `\d+` run. -/
def clean_max_iso (x : Option (List Char)) : Except Unit (Option ℚ) :=
  match x with
  | none => .ok none
  | some s0 =>
    let s := trimWs (s0.filter (fun c => c != ','))
    .ok (((runs Char.isDigit s).getLast?).map digitsVal)

/-- `clean_aperture_f`: `float` of every `[\d.]+` run, then the minimum. -/
def clean_aperture_f (x : Option (List Char)) : Except Unit (Option ℚ) :=
  match x with
  | none => .ok none
  | some s =>
    match (runs isNumChar s).mapM parseFloatTok with
    | none => .error ()
    | some [] => .ok none
    | some (q :: qs) => .ok (some (qs.foldl min q))

/-- `clean_shutter_speed`: lower-case and strip; if the string contains both
`/` and `sec`, take the reciprocal of the first `\d+` run after the last
`/` (a bare `except` turns a missing run or a zero denominator into NaN);
otherwise `float` of the first `[\d.]+` run. -/
def clean_shutter_speed (x : Option (List Char)) : Except Unit (Option ℚ) :=
  match x with
  | none => .ok none
  | some s0 =>
    let s := trimWs (s0.map asciiLower)
    if s.contains '/' && containsSub ['s', 'e', 'c'] s then
      match (runs Char.isDigit ((s.splitOn '/').getLastD [])).head? with
      | none => .ok none
      | some tok =>
        if digitsVal tok = 0 then .ok none
        else .ok (some (1 / digitsVal tok))
    else
      match firstNumTok s with
      | none => .ok none
      | some tok =>
        match parseFloatTok tok with
        | some q => .ok (some q)
        | none => .error ()

/-- `clean_exposure_range`: `re.search(r'[±+-]\s*([\d.]+)\s*EV', s)`
and `float` of the captured group. -/
def clean_exposure_range (x : Option (List Char)) : Except Unit (Option ℚ) :=
  match x with
  | none => .ok none
  | some s =>
    match expoSignMatch s with
    | none => .ok none
    | some tok =>
      match parseFloatTok tok with
      | some q => .ok (some q)
      | none => .error ()

/-- `clean_screen_res`: drop commas, lower-case, first `\d+` run. -/
def clean_screen_res (x : Option (List Char)) : Except Unit (Option ℚ) :=
  match x with
  | none => .ok none
  | some s0 =>
    let s := (s0.filter (fun c => c != ',')).map asciiLower
    .ok (((runs Char.isDigit s).head?).map digitsVal)

/-- `clean_screen_size`: drop `"` characters, strip, then
`pd.to_numeric(..., errors='coerce')`. -/
def clean_screen_size (x : Option (List Char)) : Except Unit (Option ℚ) :=
  match x with
  | none => .ok none
  | some s0 =>
    .ok (parseSignedNumber (trimWs (s0.filter (fun c => c != '\"'))))

/-- `clean_focus_range`: lower-case, delete `cm`, strip; a `[\d.]+` run
immediately followed by `m` is metres (×100), otherwise the first `[\d.]+`
run is centimetres. -/
def clean_focus_range (x : Option (List Char)) : Except Unit (Option ℚ) :=
  match x with
  | none => .ok none
  | some s0 =>
    let s := trimWs (removeCm (s0.map asciiLower))
    match findRunBefore 'm' s with
    | some tok =>
      match parseFloatTok tok with
      | some q => .ok (some (q * 100))
      | none => .error ()
    | none =>
      match firstNumTok s with
      | none => .ok none
      | some tok =>
        match parseFloatTok tok with
        | some q => .ok (some q)
        | none => .error ()

/-- `clean_dimensions`: all `\d+\.\d+|\d+` tokens; the first three when at
least three exist, otherwise an all-NaN triple. -/
def clean_dimensions (x : Option (List Char)) : Option ℚ × Option ℚ × Option ℚ :=
  match x with
  | none => (none, none, none)
  | some s =>
    match dimTokens s with
    | a :: b :: c :: _ => (some a, some b, some c)
    | _ => (none, none, none)

/-- `df['Max. video resolution'].astype(str).str.contains('3840|4096|4K',
case=False, na=False)`: case-insensitive substring test; a null cell becomes
the string `"nan"` and matches nothing. -/
def supports4K (x : Option (List Char)) : Bool :=
  match x with
  | none => false
  | some s0 =>
    let s := s0.map asciiLower
    containsSub ['3', '8', '4', '0'] s || containsSub ['4', '0', '9', '6'] s ||
      containsSub ['4', 'k'] s

/-- `pd.to_numeric(df[col], errors='coerce')` for the plain numeric columns
(megapixel counts and crop factor). -/
def toNumericCoerce (x : Option (List Char)) : Option ℚ :=
  x.bind (fun cs => parseSignedNumber (trimWs cs))

/-! ## Data model: one camera record

A raw record carries the JSON cells the script touches, each an optional
string; a clean record carries the numeric columns after section A of
`clean_and_derive_features` (renamed columns, derived aperture and
dimension columns, 4K flag, coerced numeric columns). -/

structure RawRecord where
  weight : Option (List Char)
  iso : Option (List Char)
  min_shutter_speed : Option (List Char)
  max_shutter_speed : Option (List Char)
  exposure_compensation : Option (List Char)
  screen_resolution : Option (List Char)
  screen_size : Option (List Char)
  normal_focus_range : Option (List Char)
  macro_focus_range : Option (List Char)
  max_aperture : Option (List Char)
  dimensions : Option (List Char)
  max_video_resolution : Option (List Char)
  total_megapixels : Option (List Char)
  effective_megapixels : Option (List Char)
  megapixels : Option (List Char)
  crop_factor : Option (List Char)
deriving DecidableEq

structure CleanRecord where
  weight_g : Option ℚ
  max_iso : Option ℚ
  min_shutter_speed_sec : Option ℚ
  max_shutter_speed_sec : Option ℚ
  max_exposure_comp : Option ℚ
  screen_res_dots : Option ℚ
  screen_size_in : Option ℚ
  normal_focus_cm : Option ℚ
  macro_focus_cm : Option ℚ
  min_aperture_f : Option ℚ
  dim_l : Option ℚ
  dim_w : Option ℚ
  dim_h : Option ℚ
  supports_4k : Bool
  total_megapixels : Option ℚ
  effective_megapixels : Option ℚ
  megapixels : Option ℚ
  crop_factor : Option ℚ
deriving DecidableEq

/-- Section A of `clean_and_derive_features` for one row: every column
normalizer applied to its cell; an uncaught exception anywhere aborts the
whole transform. -/
def cleanRecord (r : RawRecord) : Except Unit CleanRecord := do
  let w ← clean_weight r.weight
  let iso ← clean_max_iso r.iso
  let mins ← clean_shutter_speed r.min_shutter_speed
  let maxs ← clean_shutter_speed r.max_shutter_speed
  let exp ← clean_exposure_range r.exposure_compensation
  let sres ← clean_screen_res r.screen_resolution
  let ssize ← clean_screen_size r.screen_size
  let nf ← clean_focus_range r.normal_focus_range
  let mf ← clean_focus_range r.macro_focus_range
  let ap ← clean_aperture_f r.max_aperture
  let dims := clean_dimensions r.dimensions
  pure
    { weight_g := w
      max_iso := iso
      min_shutter_speed_sec := mins
      max_shutter_speed_sec := maxs
      max_exposure_comp := exp
      screen_res_dots := sres
      screen_size_in := ssize
      normal_focus_cm := nf
      macro_focus_cm := mf
      min_aperture_f := ap
      dim_l := dims.1
      dim_w := dims.2.1
      dim_h := dims.2.2
      supports_4k := supports4K r.max_video_resolution
      total_megapixels := toNumericCoerce r.total_megapixels
      effective_megapixels := toNumericCoerce r.effective_megapixels
      megapixels := toNumericCoerce r.megapixels
      crop_factor := toNumericCoerce r.crop_factor }

/-! ## Percentile ranking (`Series.rank` with `pct=True`)

`pandas` ties share the average rank; `na_option='top'` assigns the lowest
rank numbers to the NaN group, `na_option='bottom'` the highest; with `pct`
every rank is divided by the row count.  The rank of a row therefore only
depends on its value and on how many rows are missing, smaller (per the
ranking direction) or equal. -/

/-- The rows counting as strictly before value `v` in ranking order. -/
def ltPred {α : Type} [LinearOrder α] (asc : Bool) (v : α) : Option α → Bool
  | some w => if asc then decide (w < v) else decide (v < w)
  | none => false

/-- The rows tied with value `v`. -/
def eqPred {α : Type} [DecidableEq α] (v : α) : Option α → Bool :=
  fun y => decide (y = some v)

/-- The missing rows. -/
def nonePred {α : Type} : Option α → Bool := Option.isNone

/-- Percentile rank of the row with value `x` within column `xs`:
`Series.rank(ascending=asc, na_option='top' or 'bottom', pct=True)`. -/
def pctRank {α : Type} [LinearOrder α] (asc naTop : Bool)
    (xs : List (Option α)) (x : Option α) : ℚ :=
  let n : ℚ := (xs.length : ℕ)
  let k : ℚ := (xs.countP nonePred : ℕ)
  match x with
  | none => (cond naTop ((1 + k) / 2) ((n - k) + (1 + k) / 2)) / n
  | some v =>
    ((cond naTop k 0) + (xs.countP (ltPred asc v) : ℕ) +
        ((xs.countP (eqPred v) : ℕ) + 1) / 2) / n

/-- `1 / (Dim_L * Dim_W * Dim_H)` for one row: NaN if any factor is NaN,
`+inf` (the largest possible value, `⊤`) if the volume is zero. -/
def invVol (r : CleanRecord) : Option (WithTop ℚ) :=
  match r.dim_l, r.dim_w, r.dim_h with
  | some a, some b, some c =>
    if a * b * c = 0 then some ⊤ else some ((1 / (a * b * c) : ℚ) : WithTop ℚ)
  | _, _, _ => none

/-- `Aperture_Value = 1 / Min_Aperture_F` for one row, with the same
float conventions. -/
def apertureValue (r : CleanRecord) : Option (WithTop ℚ) :=
  match r.min_aperture_f with
  | some a => if a = 0 then some ⊤ else some ((1 / a : ℚ) : WithTop ℚ)
  | none => none

/-- `Series.clip(20, 100)`. -/
def clip20_100 (x : ℚ) : ℚ := min (max x 20) 100

/-- `Portability_Score`: weight ranked descending with NaN at the bottom
(highest ranks), inverse volume ascending with NaN at the bottom, weighted
60/40, scaled to 100 and clipped. -/
def portabilityScore (batch : List CleanRecord) (r : CleanRecord) : ℚ :=
  clip20_100
    ((pctRank false false (batch.map (fun c => c.weight_g)) r.weight_g * (6 / 10) +
        pctRank true false (batch.map invVol) (invVol r) * (4 / 10)) * 100)

/-- `LowLight_Score`: max ISO, aperture value and (descending) crop factor
percentile ranks with NaN at the top (lowest ranks), weighted 50/30/20,
scaled and clipped. -/
def lowLightScore (batch : List CleanRecord) (r : CleanRecord) : ℚ :=
  clip20_100
    ((pctRank true true (batch.map (fun c => c.max_iso)) r.max_iso * (5 / 10) +
        pctRank true true (batch.map apertureValue) (apertureValue r) * (3 / 10) +
        pctRank false true (batch.map (fun c => c.crop_factor)) r.crop_factor * (2 / 10)) * 100)

/-- `Video_Score`: 4K flag as 0/1, screen size and max shutter speed ranks
with NaN at the top, weighted 40/30/30, scaled and clipped. -/
def videoScore (batch : List CleanRecord) (r : CleanRecord) : ℚ :=
  clip20_100
    (((if r.supports_4k then (1 : ℚ) else 0) * (4 / 10) +
        pctRank true true (batch.map (fun c => c.screen_size_in)) r.screen_size_in * (3 / 10) +
        pctRank true true (batch.map (fun c => c.max_shutter_speed_sec)) r.max_shutter_speed_sec * (3 / 10)) * 100)

/-- Error-propagating map, modelling a column transform that may raise. -/
def mapE (f : RawRecord → Except Unit CleanRecord) : List RawRecord → Except Unit (List CleanRecord)
  | [] => .ok []
  | r :: rs =>
    match f r, mapE f rs with
    | .ok c, .ok cs => .ok (c :: cs)
    | .error e, _ => .error e
    | _, .error e => .error e

/-- The whole in-memory transform: clean every row, then attach the three
batch-relative scores to each row. -/
def runPipeline (rows : List RawRecord) : Except Unit (List (CleanRecord × ℚ × ℚ × ℚ)) :=
  (mapE cleanRecord rows).map
    (fun cs => cs.map (fun r => (r, portabilityScore cs r, lowLightScore cs r, videoScore cs r)))

/-- A record whose every cell is null: every normalizer sends it to the
missing-value sentinel. -/
def noneRaw : RawRecord :=
  { weight := none, iso := none, min_shutter_speed := none,
    max_shutter_speed := none, exposure_compensation := none,
    screen_resolution := none, screen_size := none,
    normal_focus_range := none, macro_focus_range := none,
    max_aperture := none, dimensions := none, max_video_resolution := none,
    total_megapixels := none, effective_megapixels := none,
    megapixels := none, crop_factor := none }

/-- The cleaned row produced from `noneRaw`. -/
def noneClean : CleanRecord :=
  { weight_g := none, max_iso := none, min_shutter_speed_sec := none,
    max_shutter_speed_sec := none, max_exposure_comp := none,
    screen_res_dots := none, screen_size_in := none, normal_focus_cm := none,
    macro_focus_cm := none, min_aperture_f := none, dim_l := none,
    dim_w := none, dim_h := none, supports_4k := false,
    total_megapixels := none, effective_megapixels := none,
    megapixels := none, crop_factor := none }

/-- A second concrete cleaned row, distinct from `noneClean`. -/
def altClean : CleanRecord :=
  { noneClean with weight_g := some 500, max_iso := some 6400, supports_4k := true }

/-! ## Output column order (`clean_and_derive_features`, section at
lines 168-174, plus the column additions of section A) -/

/-- The `df.rename(columns=...)` table. -/
def renameMap : String → String
  | "Weight" => "Weight_g"
  | "ISO" => "Max_ISO"
  | "Min. shutter speed" => "Min_Shutter_Speed_Sec"
  | "Max. shutter speed" => "Max_Shutter_Speed_Sec"
  | "Exposure Compensation" => "Max_Exposure_Comp"
  | "Screen resolution" => "Screen_Res_Dots"
  | "Screen size" => "Screen_Size_in"
  | "Normal focus range" => "Normal_Focus_cm"
  | "Macro focus range" => "Macro_Focus_cm"
  | c => c

/-- The columns appended after the rename, in assignment order. -/
def addedCols : List String :=
  ["Dim_L", "Dim_W", "Dim_H", "Supports_4K",
   "Portability_Score", "Aperture_Value", "LowLight_Score", "Video_Score"]

/-- Python `list.index`: index of the first occurrence. -/
def pyIndex (a : String) : List String → ℕ
  | [] => 0
  | b :: bs => if b = a then 0 else pyIndex a bs + 1

/-- Python `list.remove`: delete the first occurrence. -/
def pyRemove (a : String) : List String → List String
  | [] => []
  | b :: bs => if b = a then bs else b :: pyRemove a bs

/-- Python `list.insert`: insert before position `n`, appending when `n`
is past the end. -/
def pyInsert (n : ℕ) (x : String) : List String → List String
  | l =>
    match n, l with
    | 0, l => x :: l
    | _ + 1, [] => [x]
    | m + 1, b :: bs => b :: pyInsert m x bs

/-- Column order of the written table: the input columns, with
`Min_Aperture_F` first appended (line 114), the rename applied, the derived
columns appended, and finally `Min_Aperture_F` moved to directly after
`Max aperture` (lines 168-174). -/
def outputCols (cols0 : List String) : List String :=
  let c2 := ((cols0 ++ ["Min_Aperture_F"]).map renameMap) ++ addedCols
  pyInsert (pyIndex "Max aperture" c2 + 1) "Min_Aperture_F" (pyRemove "Min_Aperture_F" c2)

/-! ## Helper lemmas -/

lemma clip20_100_bounds (x : ℚ) : 20 ≤ clip20_100 x ∧ clip20_100 x ≤ 100 :=
  ⟨le_min (le_max_right x 20) (by norm_num), min_le_right _ _⟩

lemma countP_tri_le {α : Type} [LinearOrder α] (asc : Bool) (v : α)
    (xs : List (Option α)) :
    xs.countP (ltPred asc v) + xs.countP (eqPred v) + xs.countP nonePred ≤ xs.length := by
  induction xs with
  | nil => simp
  | cons y ys ih =>
    simp only [List.countP_cons, List.length_cons]
    rcases y with _ | w
    · have h1 : ltPred asc v (none : Option α) = false := rfl
      have h2 : eqPred v (none : Option α) = false := by simp [eqPred]
      have h3 : nonePred (none : Option α) = true := rfl
      rw [h1, h2, h3]
      simp only [if_false, if_true, Bool.false_eq_true]
      omega
    · have h3 : nonePred (some w) = false := rfl
      by_cases hw : w = v
      · have h1 : ltPred asc v (some w) = false := by
          cases asc <;> simp [ltPred, hw]
        have h2 : eqPred v (some w) = true := by simp [eqPred, hw]
        rw [h1, h2, h3]
        simp only [if_false, if_true, Bool.false_eq_true]
        omega
      · have h2 : eqPred v (some w) = false := by simp [eqPred, hw]
        rw [h2, h3]
        cases hlt : ltPred asc v (some w) <;>
          simp only [if_false, if_true, Bool.false_eq_true] <;> omega

lemma pctRank_perm {α : Type} [LinearOrder α] (asc naTop : Bool)
    {xs ys : List (Option α)} (h : xs.Perm ys) (x : Option α) :
    pctRank asc naTop xs x = pctRank asc naTop ys x := by
  cases x <;> simp only [pctRank, h.length_eq, h.countP_eq]

lemma mapE_ok_length (f : RawRecord → Except Unit CleanRecord) :
    ∀ {rows : List RawRecord} {cs : List CleanRecord},
      mapE f rows = .ok cs → cs.length = rows.length := by
  intro rows
  induction rows with
  | nil => intro cs h; simp only [mapE] at h; cases h; rfl
  | cons r rs ih =>
    intro cs h
    simp only [mapE] at h
    cases hf : f r with
    | error e => simp [hf] at h
    | ok c =>
      cases hm : mapE f rs with
      | error e => simp [hf, hm] at h
      | ok cs2 =>
        simp only [hf, hm] at h
        cases h
        simp [ih hm]

lemma pyIndex_append_left (a : String) {l1 : List String} (h : a ∈ l1)
    (l2 : List String) : pyIndex a (l1 ++ l2) = pyIndex a l1 := by
  induction l1 with
  | nil => cases h
  | cons b bs ih =>
    by_cases hb : b = a
    · simp [pyIndex, hb]
    · have hm : a ∈ bs := by
        rcases List.mem_cons.mp h with h1 | h1
        · exact absurd h1.symm hb
        · exact h1
      simp [pyIndex, hb, ih hm]

lemma pyIndex_lt (a : String) : ∀ {l : List String}, a ∈ l → pyIndex a l < l.length := by
  intro l
  induction l with
  | nil => intro h; cases h
  | cons b bs ih =>
    intro h
    by_cases hb : b = a
    · simp [pyIndex, hb]
    · have hm : a ∈ bs := by
        rcases List.mem_cons.mp h with h1 | h1
        · exact absurd h1.symm hb
        · exact h1
      have := ih hm
      simp only [pyIndex, hb, if_false, List.length_cons]
      omega

lemma pyIndex_get (a : String) : ∀ {l : List String}, a ∈ l → l[pyIndex a l]? = some a := by
  intro l
  induction l with
  | nil => intro h; cases h
  | cons b bs ih =>
    intro h
    by_cases hb : b = a
    · simp [pyIndex, hb]
    · have hm : a ∈ bs := by
        rcases List.mem_cons.mp h with h1 | h1
        · exact absurd h1.symm hb
        · exact h1
      simp [pyIndex, hb, ih hm]

lemma pyRemove_append_of_not_mem (a : String) {l1 : List String} (h : a ∉ l1)
    (l2 : List String) : pyRemove a (l1 ++ l2) = l1 ++ pyRemove a l2 := by
  induction l1 with
  | nil => simp
  | cons b bs ih =>
    have hb : b ≠ a := fun hba => h (hba ▸ List.mem_cons_self b bs)
    have hm : a ∉ bs := fun hm => h (List.mem_cons_of_mem b hm)
    simp [pyRemove, hb, ih hm]

lemma pyInsert_getElem_self (x : String) :
    ∀ (l : List String) (n : ℕ), n ≤ l.length → (pyInsert n x l)[n]? = some x := by
  intro l
  induction l with
  | nil =>
    intro n hn
    cases n with
    | zero => simp [pyInsert]
    | succ m => simp at hn
  | cons b bs ih =>
    intro n hn
    cases n with
    | zero => simp [pyInsert]
    | succ m =>
      have hm : m ≤ bs.length := by simpa using hn
      simp [pyInsert, ih m hm]

lemma pyInsert_getElem_lt (x : String) :
    ∀ (l : List String) (n i : ℕ), i < n → n ≤ l.length →
      (pyInsert n x l)[i]? = l[i]? := by
  intro l
  induction l with
  | nil => intro n i hi hn; simp only [List.length_nil] at hn; omega
  | cons b bs ih =>
    intro n i hi hn
    cases n with
    | zero => omega
    | succ m =>
      cases i with
      | zero => simp [pyInsert]
      | succ j =>
        have hm : m ≤ bs.length := by simpa using hn
        simp [pyInsert, ih m j (by omega) hm]

lemma renameMap_maxap : renameMap ( "Max aperture") = "Max aperture" := rfl

lemma renameMap_minap : renameMap ( "Min_Aperture_F") = "Min_Aperture_F" := rfl

lemma renameMap_eq_minap {c : String} (h : renameMap c = "Min_Aperture_F") :
    c = "Min_Aperture_F" := by
  unfold renameMap at h
  split at h <;> first | exact h | exact absurd h (by decide)

/-! ## Sanity checks: the worked examples of the specification -/

theorem focus_range_examples :
    clean_focus_range (some ( "150cm").toList) = .ok (some 150) ∧
    clean_focus_range (some ( "1.5m").toList) = .ok (some 150) := by decide

theorem supports4K_examples :
    supports4K (some ( "3840x2160").toList) = true ∧
    supports4K (some ( "1920x1080").toList) = false := by decide

/-! ## Claims -/

/-- C1, counterexample: in a LowLight/Video ranked column
(`rank(pct=True, na_option='top')`, here a two-row Max ISO column with one
present and one missing value), the missing record does NOT receive a
percentile rank greater than or equal to the present record: pandas
`na_option='top'` gives the NaN group the lowest ranks, so the missing row
gets 1/2 and the present row gets 1. -/
theorem c1_missing_rank_counterexample :
    ¬ (pctRank true true [some (100 : ℚ), none] (some 100) ≤
        pctRank true true [some (100 : ℚ), none] none) := by decide

/-- C1, amended: in every batch column with at least one present and at
least one missing value, a missing record receives a percentile rank less
than or equal to that of every present record under `na_option='top'`
(LowLight and Video inputs: missing ranks worst), and greater than or equal
to that of every present record under `na_option='bottom'` (Portability
inputs: missing ranks best), for either ranking direction. -/
theorem c1_missing_rank_amended {α : Type} [LinearOrder α] (asc : Bool)
    (xs : List (Option α)) (v : α) (hv : some v ∈ xs) (hn : none ∈ xs) :
    pctRank asc true xs none ≤ pctRank asc true xs (some v) ∧
    pctRank asc false xs (some v) ≤ pctRank asc false xs none := by
  have hN : 0 < xs.length := List.length_pos.mpr (List.ne_nil_of_mem hv)
  have hk : 0 < xs.countP nonePred := List.countP_pos_iff.mpr ⟨none, hn, rfl⟩
  have he : 0 < xs.countP (eqPred v) :=
    List.countP_pos_iff.mpr ⟨some v, hv, by simp [eqPred]⟩
  have htri := countP_tri_le asc v xs
  have hNQ : (0 : ℚ) < ((xs.length : ℕ) : ℚ) := by exact_mod_cast hN
  have hkQ : (1 : ℚ) ≤ ((xs.countP nonePred : ℕ) : ℚ) := by exact_mod_cast hk
  have heQ : (1 : ℚ) ≤ ((xs.countP (eqPred v) : ℕ) : ℚ) := by exact_mod_cast he
  have hlQ : (0 : ℚ) ≤ ((xs.countP (ltPred asc v) : ℕ) : ℚ) := by positivity
  have htriQ : ((xs.countP (ltPred asc v) : ℕ) : ℚ) + ((xs.countP (eqPred v) : ℕ) : ℚ) +
      ((xs.countP nonePred : ℕ) : ℚ) ≤ ((xs.length : ℕ) : ℚ) := by exact_mod_cast htri
  constructor
  · simp only [pctRank, Bool.cond_true]
    rw [div_eq_mul_inv, div_eq_mul_inv]
    refine mul_le_mul_of_nonneg_right ?_ (inv_nonneg.mpr hNQ.le)
    linarith
  · simp only [pctRank, Bool.cond_false]
    rw [div_eq_mul_inv, div_eq_mul_inv]
    refine mul_le_mul_of_nonneg_right ?_ (inv_nonneg.mpr hNQ.le)
    linarith

/-- C1, witness: the amended statement at a concrete two-row column. -/
theorem c1_missing_rank_witness :
    pctRank true true [some (100 : ℚ), none] none ≤
      pctRank true true [some (100 : ℚ), none] (some 100) ∧
    pctRank true false [some (100 : ℚ), none] (some 100) ≤
      pctRank true false [some (100 : ℚ), none] none :=
  c1_missing_rank_amended true [some 100, none] 100 (by decide) (by decide)

/-- C2: the normalizers are not total — on cells whose first `[\d.]+` run
is not a valid float literal (such as a lone dot), `float` raises an
uncaught `ValueError`, aborting the run instead of producing the
missing-value sentinel.  The spec (and the uniform `... if match else
np.nan` / bare-`except` style of the code) clearly intends totality, so
this is a bug in the code. -/
theorem c2_normalizer_totality_failure :
    clean_weight (some ( ".").toList) = .error () ∧
    clean_aperture_f (some ( ".").toList) = .error () ∧
    clean_shutter_speed (some ( ".").toList) = .error () ∧
    clean_focus_range (some ( ".m").toList) = .error () ∧
    clean_exposure_range (some ( "±. EV").toList) = .error () := by decide

/-- C3: for a non-empty batch, each of the three derived scores of every
row is a defined rational in the closed interval [20, 100]: the final
`clip(20, 100)` bounds it on both sides, and the rank combination is total
(rank with `na_option` top/bottom never yields NaN). -/
theorem c3_scores_in_range (rows : List CleanRecord) (hne : rows ≠ [])
    (r : CleanRecord) (hr : r ∈ rows) :
    (20 ≤ portabilityScore rows r ∧ portabilityScore rows r ≤ 100) ∧
    (20 ≤ lowLightScore rows r ∧ lowLightScore rows r ≤ 100) ∧
    (20 ≤ videoScore rows r ∧ videoScore rows r ≤ 100) := by
  refine ⟨?_, ?_, ?_⟩
  · unfold portabilityScore
    exact clip20_100_bounds _
  · unfold lowLightScore
    exact clip20_100_bounds _
  · unfold videoScore
    exact clip20_100_bounds _

/-- C3, witness: the score bounds at a concrete one-row batch. -/
theorem c3_scores_in_range_witness :
    (20 ≤ portabilityScore [noneClean] noneClean ∧
      portabilityScore [noneClean] noneClean ≤ 100) ∧
    (20 ≤ lowLightScore [noneClean] noneClean ∧
      lowLightScore [noneClean] noneClean ≤ 100) ∧
    (20 ≤ videoScore [noneClean] noneClean ∧
      videoScore [noneClean] noneClean ≤ 100) :=
  c3_scores_in_range [noneClean] (by decide) noneClean (by decide)

/-- C4: the three scores are a function of the batch as a multiset —
permuting the input rows changes no row's score, and the scored output of a
permuted batch is the corresponding permutation of the scored output.
(Determinism on an identical batch is immediate: the scores are functions.) -/
theorem c4_batch_permutation_invariance (rows rows' : List CleanRecord)
    (h : rows.Perm rows') :
    (∀ r : CleanRecord,
        portabilityScore rows r = portabilityScore rows' r ∧
        lowLightScore rows r = lowLightScore rows' r ∧
        videoScore rows r = videoScore rows' r) ∧
    (rows.map (fun r =>
        (portabilityScore rows r, lowLightScore rows r, videoScore rows r))).Perm
      (rows'.map (fun r =>
        (portabilityScore rows' r, lowLightScore rows' r, videoScore rows' r))) := by
  have hp : ∀ r : CleanRecord,
      portabilityScore rows r = portabilityScore rows' r ∧
      lowLightScore rows r = lowLightScore rows' r ∧
      videoScore rows r = videoScore rows' r := by
    intro r
    refine ⟨?_, ?_, ?_⟩
    · unfold portabilityScore
      rw [pctRank_perm false false (h.map (fun c => c.weight_g)) r.weight_g,
        pctRank_perm true false (h.map invVol) (invVol r)]
    · unfold lowLightScore
      rw [pctRank_perm true true (h.map (fun c => c.max_iso)) r.max_iso,
        pctRank_perm true true (h.map apertureValue) (apertureValue r),
        pctRank_perm false true (h.map (fun c => c.crop_factor)) r.crop_factor]
    · unfold videoScore
      rw [pctRank_perm true true (h.map (fun c => c.screen_size_in)) r.screen_size_in,
        pctRank_perm true true (h.map (fun c => c.max_shutter_speed_sec)) r.max_shutter_speed_sec]
  refine ⟨hp, ?_⟩
  have hfun : (fun r : CleanRecord =>
      (portabilityScore rows r, lowLightScore rows r, videoScore rows r))
      = fun r : CleanRecord =>
      (portabilityScore rows' r, lowLightScore rows' r, videoScore rows' r) := by
    funext r
    rcases hp r with ⟨e1, e2, e3⟩
    rw [e1, e2, e3]
  rw [hfun]
  exact h.map _

/-- C4, witness: scores agree across a concrete two-row swap. -/
theorem c4_batch_permutation_invariance_witness :
    lowLightScore [noneClean, altClean] noneClean =
      lowLightScore [altClean, noneClean] noneClean :=
  ((c4_batch_permutation_invariance [noneClean, altClean] [altClean, noneClean]
      (List.Perm.swap altClean noneClean [])).1 noneClean).2.1

/-- C5, counterexample: `"1/0 sec"` contains both `/` and `sec` and its
denominator has the integer run `0`, so by the claim the result should be
that run's reciprocal (a number); the code instead hits
`ZeroDivisionError`, caught into the missing-value sentinel. -/
theorem c5_shutter_counterexample :
    clean_shutter_speed (some ( "1/0 sec").toList) = .ok none ∧
    (( "1/0 sec").toList.contains '/') = true ∧
    containsSub ['s', 'e', 'c'] (( "1/0 sec").toList) = true ∧
    (runs Char.isDigit (((( "1/0 sec").toList).splitOn '/').getLastD [])).head? =
      some ['0'] := by decide

/-- C5, amended: `"1/4000 sec"` → 1/4000, `"30 sec"` → 30, `"1/sec"` →
missing; when the (lower-cased, stripped) input contains both `/` and
`sec`, the result is the reciprocal of the first integer run of the last
`/`-separated part when that run is nonzero, and the missing-value sentinel
when there is no such run or the run is zero; otherwise the first `[\d.]+`
token parsed as a float is returned as whole seconds. -/
theorem c5_shutter_speed_amended :
    clean_shutter_speed (some ( "1/4000 sec").toList) = .ok (some (1 / 4000)) ∧
    clean_shutter_speed (some ( "30 sec").toList) = .ok (some 30) ∧
    clean_shutter_speed (some ( "1/sec").toList) = .ok none ∧
    (∀ s tok : List Char,
        (trimWs (s.map asciiLower)).contains '/' = true →
        containsSub ['s', 'e', 'c'] (trimWs (s.map asciiLower)) = true →
        (runs Char.isDigit
            (((trimWs (s.map asciiLower)).splitOn '/').getLastD [])).head? = some tok →
        (digitsVal tok ≠ 0 →
          clean_shutter_speed (some s) = .ok (some (1 / digitsVal tok))) ∧
        (digitsVal tok = 0 → clean_shutter_speed (some s) = .ok none)) ∧
    (∀ s : List Char,
        (trimWs (s.map asciiLower)).contains '/' = true →
        containsSub ['s', 'e', 'c'] (trimWs (s.map asciiLower)) = true →
        (runs Char.isDigit
            (((trimWs (s.map asciiLower)).splitOn '/').getLastD [])).head? = none →
        clean_shutter_speed (some s) = .ok none) ∧
    (∀ s tok : List Char, ∀ q : ℚ,
        ((trimWs (s.map asciiLower)).contains '/' &&
            containsSub ['s', 'e', 'c'] (trimWs (s.map asciiLower))) = false →
        firstNumTok (trimWs (s.map asciiLower)) = some tok →
        parseFloatTok tok = some q →
        clean_shutter_speed (some s) = .ok (some q)) := by
  refine ⟨by decide, by decide, by decide, ?_, ?_, ?_⟩
  · intro s tok h1 h2 h3
    have hcond : ((trimWs (s.map asciiLower)).contains '/' &&
        containsSub ['s', 'e', 'c'] (trimWs (s.map asciiLower))) = true := by
      rw [h1, h2]
      rfl
    constructor
    · intro h4
      simp only [clean_shutter_speed]
      rw [hcond, if_pos (rfl : true = true), h3]
      show (if digitsVal tok = 0 then (Except.ok none : Except Unit (Option ℚ))
          else Except.ok (some (1 / digitsVal tok))) = Except.ok (some (1 / digitsVal tok))
      rw [if_neg h4]
    · intro h4
      simp only [clean_shutter_speed]
      rw [hcond, if_pos (rfl : true = true), h3]
      show (if digitsVal tok = 0 then (Except.ok none : Except Unit (Option ℚ))
          else Except.ok (some (1 / digitsVal tok))) = Except.ok none
      rw [if_pos h4]
  · intro s h1 h2 h3
    have hcond : ((trimWs (s.map asciiLower)).contains '/' &&
        containsSub ['s', 'e', 'c'] (trimWs (s.map asciiLower))) = true := by
      rw [h1, h2]
      rfl
    simp only [clean_shutter_speed]
    rw [hcond, if_pos (rfl : true = true), h3]
  · intro s tok q h0 hft hpt
    simp only [clean_shutter_speed]
    rw [h0, if_neg (by simp : ¬ (false = true)), hft]
    show (match parseFloatTok tok with
      | some q => (Except.ok (some q) : Except Unit (Option ℚ))
      | none => Except.error ()) = Except.ok (some q)
    simp only [hpt]

/-- C5, witness: the amended fraction clause at `"1/250 sec"`. -/
theorem c5_shutter_speed_witness :
    clean_shutter_speed (some ( "1/250 sec").toList) =
      .ok (some (1 / digitsVal (( "250").toList))) :=
  (c5_shutter_speed_amended.2.2.2.1 (( "1/250 sec").toList) (( "250").toList)
    (by decide) (by decide) (by decide)).1 (by decide)

/-- C6: a successful run produces exactly one output row per input record,
and in the output column order the derived `Min_Aperture_F` column sits
directly after its source column `Max aperture`. -/
theorem c6_row_count_and_aperture_column (rows : List RawRecord)
    (out : List (CleanRecord × ℚ × ℚ × ℚ)) (cols0 : List String)
    (h1 : runPipeline rows = .ok out)
    (h2 : ( "Max aperture") ∈ cols0) (h3 : ( "Min_Aperture_F") ∉ cols0) :
    out.length = rows.length ∧
    ∃ i : ℕ, (outputCols cols0)[i]? = some ( "Max aperture") ∧
      (outputCols cols0)[i + 1]? = some ( "Min_Aperture_F") := by
  constructor
  · unfold runPipeline at h1
    cases hm : mapE cleanRecord rows with
    | error e =>
      rw [hm] at h1
      simp [Except.map] at h1
    | ok cs =>
      rw [hm] at h1
      simp only [Except.map] at h1
      cases h1
      simp [mapE_ok_length _ hm]
  · have hmem : ( "Max aperture") ∈ cols0.map renameMap :=
      List.mem_map.mpr ⟨_, h2, renameMap_maxap⟩
    have hnot : ( "Min_Aperture_F") ∉ cols0.map renameMap := by
      intro hmm
      rcases List.mem_map.mp hmm with ⟨c, hc, hce⟩
      exact h3 (renameMap_eq_minap hce ▸ hc)
    have hc2 : ((cols0 ++ [( "Min_Aperture_F")]).map renameMap) ++ addedCols
        = cols0.map renameMap ++ (( "Min_Aperture_F") :: addedCols) := by
      rw [List.map_append]
      simp [renameMap_minap]
    have hidx : pyIndex ( "Max aperture")
        (cols0.map renameMap ++ (( "Min_Aperture_F") :: addedCols))
        = pyIndex ( "Max aperture") (cols0.map renameMap) :=
      pyIndex_append_left _ hmem _
    have hplt := pyIndex_lt ( "Max aperture") hmem
    have hrem : pyRemove ( "Min_Aperture_F")
        (cols0.map renameMap ++ (( "Min_Aperture_F") :: addedCols))
        = cols0.map renameMap ++ addedCols := by
      rw [pyRemove_append_of_not_mem _ hnot]
      simp [pyRemove]
    have hlen1 : pyIndex ( "Max aperture") (cols0.map renameMap) + 1 ≤
        (cols0.map renameMap ++ addedCols).length := by
      rw [List.length_append]
      omega
    refine ⟨pyIndex ( "Max aperture") (cols0.map renameMap), ?_, ?_⟩
    · simp only [outputCols]
      rw [hc2, hidx, hrem,
        pyInsert_getElem_lt _ _ _ _ (Nat.lt_succ_self _) hlen1,
        List.getElem?_append_left hplt]
      exact pyIndex_get _ hmem
    · simp only [outputCols]
      rw [hc2, hidx, hrem]
      exact pyInsert_getElem_self _ _ _ hlen1

/-- C6, witness: a concrete one-record run with a one-column schema. -/
theorem c6_row_count_witness :
    ([((noneClean, (100 : ℚ), (100 : ℚ), (60 : ℚ)))].length
        = ([noneRaw] : List RawRecord).length) ∧
    ∃ i : ℕ, (outputCols [( "Max aperture")])[i]? = some ( "Max aperture") ∧
      (outputCols [( "Max aperture")])[i + 1]? = some ( "Min_Aperture_F") :=
  c6_row_count_and_aperture_column [noneRaw] [(noneClean, 100, 100, 60)]
    [( "Max aperture")] (by decide) (by decide) (by decide)

/-- C7, counterexample: `"-3 EV"` contains neither `±` nor plus-slash-minus, yet the
regex sign class `[±+-]` matches the bare `-`, so the result is 3.0 rather
than the missing-value sentinel the claim requires for inputs without those
two sign spellings. -/
theorem c7_exposure_counterexample :
    clean_exposure_range (some ( "-3 EV").toList) = .ok (some 3) ∧
    containsSub (( "±").toList) (( "-3 EV").toList) = false ∧
    containsSub (( "+/-").toList) (( "-3 EV").toList) = false := by decide

/-- C7, amended: `"±5 EV"` → 5.0, `"5 stops"` → missing, and lowercase
`"ev"` does not match (`"±5 ev"` → missing); in general the result is the
float value of the `[\d.]+` group of the first match of
`[±+-]\s*([\d.]+)\s*EV` — a single sign character `±`, `+` or `-` — and
the missing-value sentinel when no such match exists. -/
theorem c7_exposure_range_amended :
    clean_exposure_range (some ( "±5 EV").toList) = .ok (some 5) ∧
    clean_exposure_range (some ( "5 stops").toList) = .ok none ∧
    clean_exposure_range (some ( "±5 ev").toList) = .ok none ∧
    (∀ s tok : List Char, ∀ q : ℚ, expoSignMatch s = some tok →
        parseFloatTok tok = some q →
        clean_exposure_range (some s) = .ok (some q)) ∧
    (∀ s : List Char, expoSignMatch s = none →
        clean_exposure_range (some s) = .ok none) := by
  refine ⟨by decide, by decide, by decide, ?_, ?_⟩
  · intro s tok q h1 h2
    simp [clean_exposure_range, h1, h2]
  · intro s h1
    simp [clean_exposure_range, h1]

/-- C7, witness: the amended match clause at `"+4 EV"`. -/
theorem c7_exposure_range_witness :
    clean_exposure_range (some ( "+4 EV").toList) = .ok (some 4) :=
  c7_exposure_range_amended.2.2.2.1 (( "+4 EV").toList) ['4'] 4
    (by decide) (by decide)

/-- C8: `"120 x 80 x 45 mm"` → (120, 80, 45); whenever at least three
`\d+\.\d+|\d+` tokens can be extracted the first three are returned as the
(length, width, height) triple, and with fewer than three (such as
`"120 x 80"`) the result is the all-missing triple. -/
theorem c8_dimensions (s : List Char) :
    clean_dimensions (some ( "120 x 80 x 45 mm").toList) =
      (some 120, some 80, some 45) ∧
    clean_dimensions (some ( "120 x 80").toList) = (none, none, none) ∧
    (∀ a b c : ℚ, ∀ rest : List ℚ, dimTokens s = a :: b :: c :: rest →
        clean_dimensions (some s) = (some a, some b, some c)) ∧
    ((dimTokens s).length < 3 → clean_dimensions (some s) = (none, none, none)) := by
  refine ⟨by decide, by decide, ?_, ?_⟩
  · intro a b c rest h
    simp [clean_dimensions, h]
  · intro h
    simp only [clean_dimensions]
    rcases hts : dimTokens s with _ | ⟨a, _ | ⟨b, _ | ⟨c, rest⟩⟩⟩
    · rfl
    · rfl
    · rfl
    · rw [hts] at h
      simp at h
      omega

/-- C8, witness: the general clause at a concrete four-token string. -/
theorem c8_dimensions_witness :
    clean_dimensions (some ( "7 8 9 10").toList) = (some 7, some 8, some 9) :=
  (c8_dimensions (( "7 8 9 10").toList)).2.2.1 7 8 9 [10] (by decide)

/-- C9: `clean_max_iso` deletes commas before collecting integer runs, so
the thousands separator in `"100-12,800"` does not split the last number:
the result is 12800, not 800. -/
theorem c9_iso_comma_separator :
    clean_max_iso (some ( "100-12,800").toList) = .ok (some 12800) ∧
    clean_max_iso (some ( "100-12,800").toList) ≠ .ok (some 800) := by decide

/-- C10: the sign class of `clean_exposure_range` also accepts a bare `+`
or `-`: `"-3 EV"` and `"0-3 EV"` contain neither `±` nor plus-slash-minus, yet both
yield 3.0 instead of the missing-value sentinel. -/
theorem c10_exposure_bare_sign :
    clean_exposure_range (some ( "-3 EV").toList) = .ok (some 3) ∧
    clean_exposure_range (some ( "0-3 EV").toList) = .ok (some 3) ∧
    containsSub (( "±").toList) (( "0-3 EV").toList) = false ∧
    containsSub (( "+/-").toList) (( "0-3 EV").toList) = false := by decide
